import Mathlib

/-!
# Verification of the Mzon news-discovery pipeline core

Shallow embedding of the article aggregation / deduplication / ranking /
social-repackaging core of the Mzon backend (Python sources under
`backend/agents/`).  Python strings are modelled as `List Char`, Python
floats as exact rationals `ℚ`, raised exceptions as `Option`/`Except`
`none`/`error` results.  Each embedded definition mirrors one Python
function and is named after it.
-/

set_option maxHeartbeats 1000000
set_option maxRecDepth 4000


namespace Mzon

/-- Python `str.lower()` restricted to ASCII, on the character list of a
string. -/
def lowerStr (s : List Char) : List Char := s.map Char.toLower

/-- Auxiliary for `splitWs`: accumulates the current word (reversed). -/
def splitWsAux : List Char → List Char → List (List Char)
  | [], cur => if cur.isEmpty then [] else [cur.reverse]
  | c :: cs, cur =>
    if c.isWhitespace then
      if cur.isEmpty then splitWsAux cs [] else cur.reverse :: splitWsAux cs []
    else splitWsAux cs (c :: cur)

/-- Python `str.split()` with no argument: split on whitespace runs,
dropping empty pieces. -/
def splitWs (s : List Char) : List (List Char) := splitWsAux s []

/-- Python `needle in haystack` substring test on strings.  The empty
needle occurs in every string, as in Python. -/
def isSubstr : List Char → List Char → Bool
  | pat, [] => pat.isEmpty
  | pat, c :: rest => pat.isPrefixOf (c :: rest) || isSubstr pat rest

/-- Python `" ".join(pieces)`. -/
def joinSp : List (List Char) → List Char
  | [] => []
  | w :: ws =>
    match ws with
    | [] => w
    | _ :: _ => w ++ ' ' :: joinSp ws

end Mzon

namespace Mzon

/-- `NewsItem` / `ProcessedNewsItem` from `models/news_models.py`, restricted
to the fields the verified pipeline core reads or writes.  `published_at`
is modelled by `published_hours_old`, the age of the article in hours at
the time of the call (the code only ever uses
`(datetime.now() - published_at).total_seconds() / 3600`).  `category` is
modelled as the enum's string value. -/
structure Article where
  title : String
  description : Option String := none
  summary : Option String := none
  content : Option String := none
  url : String := ""
  image_url : Option String := none
  source : String := ""
  published_hours_old : Option ℚ := none
  category : Option String := none
  tags : List String := []
  credibility_score : Option ℚ := none
  engagement_score : Option ℚ := none
  relevance_score : Option ℚ := none
  hashtags : List String := []
  key_points : List String := []
  trending_potential : Option ℚ := none
deriving DecidableEq

/-! ## NewsSearchAgent._remove_duplicates (news_search_agent.py:213-236) -/

/-- `set(title.lower().split())` of `_remove_duplicates`: the token set of a
title, represented as a duplicate-free list. -/
def titleTokens (t : String) : List (List Char) :=
  (splitWs (lowerStr t.data)).dedup

/-- `similarity = overlap / max(len(title_words), len(seen_words))` of
`_remove_duplicates`.  Both arguments are duplicate-free token lists.
Returns `none` when both sets are empty, where Python raises
`ZeroDivisionError`. -/
def similarity (tw sw : List (List Char)) : Option ℚ :=
  if max tw.length sw.length = 0 then none
  else some (((tw.inter sw).length : ℚ) / (max tw.length sw.length : ℚ))

/-- The inner `for seen_title in seen_titles` loop of `_remove_duplicates`:
scan the seen token sets, `break` (return `true`) on the first similarity
strictly above `0.7`; propagate a `ZeroDivisionError` as `none`. -/
def isDuplicate (tw : List (List Char)) : List (List (List Char)) → Option Bool
  | [] => some false
  | sw :: rest =>
    match similarity tw sw with
    | none => none
    | some s => if (7 : ℚ) / 10 < s then some true else isDuplicate tw rest

/-- The outer loop of `_remove_duplicates`, carrying the `seen_titles`
state (as token sets — the code stores lowered titles and re-tokenizes,
which is equivalent).  `none` models a raised `ZeroDivisionError`. -/
def removeDuplicatesAux (seen : List (List (List Char))) :
    List Article → Option (List Article)
  | [] => some []
  | a :: rest =>
    match isDuplicate (titleTokens a.title) seen with
    | none => none
    | some true => removeDuplicatesAux seen rest
    | some false =>
      (removeDuplicatesAux (titleTokens a.title :: seen) rest).map (a :: ·)

/-- `NewsSearchAgent._remove_duplicates(articles)`: `none` models a raised
`ZeroDivisionError`. -/
def remove_duplicates (articles : List Article) : Option (List Article) :=
  removeDuplicatesAux [] articles

/-! ### Concrete articles used in the dedup claims -/

/-- Spec example title 1a. -/
def itemMajor : Article := { title := "AI Startup Raises Major Funding Round" }

/-- Spec example title 1b (near-duplicate of `itemMajor`). -/
def itemMassive : Article := { title := "AI Startup Raises Massive Funding Round" }

/-- Spec example title 2a. -/
def itemAIFunding : Article := { title := "AI Startup Raises Funding" }

/-- Spec example title 2b (unrelated to `itemAIFunding`). -/
def itemClimate : Article := { title := "Climate Policy Summit Begins" }

/-- An article with an empty title. -/
def itemEmpty1 : Article := { title := "" }

/-- A second article with an empty title. -/
def itemEmpty2 : Article := { title := "", url := "second" }

/-! ## TagFilterAgent (tag_filter_agent.py) -/

/-- The `tag_weights` dictionary from `TagFilterAgent._setup`. -/
def tag_weight_table : List (String × ℚ) :=
  [("ai", 1), ("artificial intelligence", 1), ("machine learning", 9/10),
   ("technology", 4/5), ("innovation", 7/10), ("startup", 4/5),
   ("business", 3/5), ("marketing", 7/10), ("design", 7/10),
   ("photography", 4/5), ("social media", 9/10), ("trending", 1),
   ("breaking", 1), ("exclusive", 9/10)]

/-- `self.tag_weights.get(tag_lower, 0.5)`. -/
def tag_weights (t : String) : ℚ :=
  ((tag_weight_table.find? (fun p => p.1 == t)).map Prod.snd).getD (1/2)

/-- The `category_preferences` dictionary from `TagFilterAgent._setup`. -/
def category_preference_table : List (String × ℚ) :=
  [("ai", 6/5), ("technology", 11/10), ("design", 1), ("marketing", 11/10),
   ("photography", 1), ("business", 9/10), ("tools", 1), ("resources", 4/5)]

/-- `self.category_preferences.get(category_value, 1.0)`. -/
def category_preferences (c : String) : ℚ :=
  ((category_preference_table.find? (fun p => p.1 == c)).map Prod.snd).getD 1

/-- The semantic-relation table of `TagFilterAgent._is_semantically_related`. -/
def semantic_relations (t : String) : List String :=
  if t = "ai" then
    ["artificial", "intelligence", "machine", "learning", "neural", "deep", "algorithm"] else
  if t = "technology" then
    ["tech", "digital", "innovation", "software", "hardware", "computing"] else
  if t = "marketing" then
    ["advertising", "promotion", "brand", "campaign", "social media"] else
  if t = "design" then
    ["ui", "ux", "visual", "graphic", "interface", "user experience"] else
  if t = "photography" then
    ["photo", "camera", "image", "picture", "visual", "shoot"] else
  if t = "business" then
    ["company", "startup", "entrepreneur", "revenue", "profit", "corporate"] else
  if t = "innovation" then
    ["breakthrough", "revolutionary", "cutting-edge", "advanced", "novel"] else []

/-- `TagFilterAgent._is_semantically_related(tag, text)`. -/
def is_semantically_related (tag : String) (text : List Char) : Bool :=
  (semantic_relations tag).any (fun term => isSubstr term.data text)

/-- The combined lower-cased text blob of `_calculate_tag_relevance`:
`" ".join([title, description or "", summary or "", " ".join(tags),
" ".join(hashtags)]).lower()`. -/
def article_text (a : Article) : List Char :=
  lowerStr (joinSp [a.title.data, (a.description.getD "").data, (a.summary.getD "").data,
    joinSp (a.tags.map String.data), joinSp (a.hashtags.map String.data)])

/-- One iteration of the `for tag in user_tags` loop of
`_calculate_tag_relevance`: the state is `(tag_matches, total_weight)`. -/
def tagStep (text : List Char) (acc : ℚ × ℚ) (tag : String) : ℚ × ℚ :=
  let tagLower : List Char := lowerStr tag.data
  let weight := tag_weights (String.mk tagLower)
  let total := acc.2 + weight
  let credit :=
    if isSubstr tagLower text then acc.1 + weight
    else
      let tagWords := splitWs tagLower
      if 1 < tagWords.length then
        if (tagWords.length : ℚ) * (3/5) ≤ ((tagWords.filter (fun w => isSubstr w text)).length : ℚ)
        then acc.1 + weight * (4/5) else acc.1
      else
        if is_semantically_related (String.mk tagLower) text then acc.1 + weight * (3/5)
        else acc.1
  (credit, total)

/-- `TagFilterAgent._calculate_tag_relevance(article, user_tags)`. -/
def calculate_tag_relevance (a : Article) (user_tags : List String) : ℚ :=
  if user_tags = [] then 50
  else
    let mt := user_tags.foldl (tagStep (article_text a)) (0, 0)
    if mt.2 = 0 then 50
    else min (mt.1 / mt.2 * 100) 100

/-- The related-category table of `_calculate_category_relevance`. -/
def related_categories (c : String) : List String :=
  if c = "ai" then ["technology", "innovation"] else
  if c = "technology" then ["ai", "innovation", "tools"] else
  if c = "marketing" then ["business", "social media"] else
  if c = "design" then ["tools", "photography"] else
  if c = "photography" then ["design", "tools"] else []

/-- `TagFilterAgent._calculate_category_relevance(article, user_categories)`. -/
def calculate_category_relevance (a : Article) (user_categories : List String) : ℚ :=
  match a.category with
  | none => 50
  | some cv =>
    if user_categories = [] then 50
    else if cv ∈ user_categories then 80 * category_preferences cv
    else if (related_categories cv).any (fun rc => decide (rc ∈ user_categories)) then 60
    else 40

/-- The trusted-publisher list of `_calculate_content_quality`. -/
def trusted_sources : List String :=
  ["reuters", "bbc", "cnn", "techcrunch", "wired", "the verge",
   "harvard business review", "mit technology review"]

/-- `any(source in article.source.lower() for source in trusted_sources)`. -/
def trusted_source_match (source : String) : Bool :=
  trusted_sources.any (fun s => isSubstr s.data (lowerStr source.data))

/-- `TagFilterAgent._calculate_content_quality(article)`.  Python
truthiness is modelled exactly: a sub-score equal to `0` is falsy and
adds nothing, `image_url` equal to the empty string is falsy, and so on.
The final value is `min(score, 100.0)` — there is no floor. -/
def calculate_content_quality (a : Article) : ℚ :=
  let s0 : ℚ := 50
  let s1 := match a.credibility_score with
    | some c => if c = 0 then s0 else s0 + (c - 50) * (3/10)
    | none => s0
  let s2 := match a.engagement_score with
    | some e => if e = 0 then s1 else s1 + (e - 50) * (1/5)
    | none => s1
  let s3 := if 100 < (a.summary.getD "").length then s2 + 10 else s2
  let s4 := if a.key_points ≠ [] then s3 + 5 else s3
  let s5 := if 500 < (a.content.getD "").length then s4 + 10 else s4
  let s6 := if a.image_url.getD "" ≠ "" then s5 + 5 else s5
  let s7 := if a.source ≠ "" ∧ trusted_source_match a.source then s6 + 15 else s6
  min s7 100

/-- `TagFilterAgent._calculate_freshness_score(article)`; the age in hours
`(datetime.now() - published_at).total_seconds() / 3600` is the
`published_hours_old` field of the model. -/
def calculate_freshness_score (a : Article) : ℚ :=
  match a.published_hours_old with
  | none => 50
  | some h =>
    if h < 6 then 100
    else if h < 24 then 80
    else if h < 72 then 60
    else if h < 168 then 40
    else 20

/-- The weighted combination of `TagFilterAgent.execute` (lines 103-108):
`tag*0.4 + category*0.2 + content*0.2 + freshness*0.2`. -/
def combinedScore (tag cat quality fresh : ℚ) : ℚ :=
  tag * (2/5) + cat * (1/5) + quality * (1/5) + fresh * (1/5)

/-- The body of the per-article `try` block of `TagFilterAgent.execute`
(lines 84-117): compute the four sub-scores, combine them and assign the
result to `relevance_score`; if scoring raises (the supplied sub-scorer
returns `.error`), catch it and keep the article with the neutral score
`50.0`. -/
def scoreOne (subScores : Article → Except String (ℚ × ℚ × ℚ × ℚ)) (a : Article) : Article :=
  match subScores a with
  | .ok (t, c, q, f) => { a with relevance_score := some (combinedScore t c q f) }
  | .error _ => { a with relevance_score := some 50 }

/-- The scoring loop of `TagFilterAgent.execute`: every article is scored
and appended to `scored_articles`, whether its scoring succeeded or
raised. -/
def scoreArticles (subScores : Article → Except String (ℚ × ℚ × ℚ × ℚ))
    (articles : List Article) : List Article :=
  articles.map (scoreOne subScores)

/-- The non-raising sub-scorer actually used by `TagFilterAgent.execute`:
the four scorer methods of the agent. -/
def tagFilterSubScores (tags cats : List String) (a : Article) :
    Except String (ℚ × ℚ × ℚ × ℚ) :=
  .ok (calculate_tag_relevance a tags, calculate_category_relevance a cats,
       calculate_content_quality a, calculate_freshness_score a)

/-- `x.relevance_score or 0`: the sort key of `TagFilterAgent.execute` and
`NewsSearchAgent._rank_articles` (`None` and `0.0` both map to `0`). -/
def scoreKey (a : Article) : ℚ := a.relevance_score.getD 0

/-- Stable descending insertion: an earlier-arrived element passes a later
one only when the later one's key is strictly greater.  This is the
insertion step of `sortDesc`. -/
def insertDesc (a : Article) : List Article → List Article
  | [] => [a]
  | b :: l => if scoreKey a < scoreKey b then b :: insertDesc a l else a :: b :: l

/-- `sorted(scored_articles, key=lambda x: x.relevance_score or 0,
reverse=True)`: a stable descending sort.  Python's `sorted` is stable
(also under `reverse=True`); a stable descending sort is uniquely
determined by the permutation, sortedness and stability properties proved
in C8, so this model computes exactly Python's output. -/
def sortDesc : List Article → List Article
  | [] => []
  | a :: l => insertDesc a (sortDesc l)

/-- A value in the result dictionary of `TagFilterAgent.execute`. -/
inductive RVal where
  | arts (l : List Article)
  | num (n : Nat)
  | rat (q : ℚ)
deriving DecidableEq

/-- The data path of `TagFilterAgent.execute` (without the progress
side-channel): empty input returns the single-key dictionary
`{"filtered_articles": []}`; otherwise score, sort descending, filter by
the relevance floor 30 and return the four-key dictionary.  Dictionaries
are modelled as association lists in insertion order. -/
def executeTagFilter (subScores : Article → Except String (ℚ × ℚ × ℚ × ℚ))
    (articles : List Article) : List (String × RVal) :=
  if articles = [] then [("filtered_articles", RVal.arts [])]
  else
    let filtered := sortDesc (scoreArticles subScores articles)
    let high := filtered.filter (fun a => decide ((30 : ℚ) ≤ scoreKey a))
    [("articles", RVal.arts high),
     ("filtered_count", RVal.num high.length),
     ("original_count", RVal.num articles.length),
     ("average_relevance",
       RVal.rat (if high = [] then 0 else (high.map scoreKey).sum / (high.length : ℚ)))]

/-- A sub-scorer that raises on every article, modelling a scoring step
that throws. -/
def failingSubScores : Article → Except String (ℚ × ℚ × ℚ × ℚ) :=
  fun _ => .error "scoring failure"

/-- An article whose optional `credibility_score` is adversarial
(negative). -/
def adversarialArticle : Article := { title := "t", credibility_score := some (-1000) }

/-! ## SocialContentAgent (social_content_agent.py) -/

/-- The category hashtag dictionary of `_generate_additional_hashtags`. -/
def category_hashtag_table : List (String × List String) :=
  [("ai", ["#AI", "#ArtificialIntelligence", "#MachineLearning"]),
   ("technology", ["#Tech", "#Innovation", "#Digital"]),
   ("business", ["#Business", "#Startup", "#Innovation"]),
   ("marketing", ["#Marketing", "#SocialMedia", "#DigitalMarketing"]),
   ("design", ["#Design", "#UX", "#Creative"]),
   ("photography", ["#Photography", "#Visual", "#Creative"])]

/-- The generic trending hashtags of `_generate_additional_hashtags`. -/
def general_hashtags : List String := ["#News", "#Update", "#TechNews", "#Innovation"]

/-- `SocialContentAgent._generate_additional_hashtags(article, needed_count)`:
category-keyed hashtags first, topped up from the generic list, capped at
`needed`. -/
def generate_additional_hashtags (category : Option String) (needed : Nat) :
    List String :=
  let hs : List String := match category with
    | some cat =>
      match category_hashtag_table.find? (fun p => p.1 == cat) with
      | some p => p.2.take needed
      | none => []
    | none => []
  let hs := if hs.length < needed then hs ++ general_hashtags.take (needed - hs.length)
    else hs
  hs.take needed

/-- The per-tag normalization of `_select_hashtags`: prepend `#` when
missing, then keep only alphanumeric characters and `#`. -/
def formatTag (t : List Char) : List Char :=
  (if t.take 1 = ['#'] then t else '#' :: t).filter (fun c => c.isAlphanum || c == '#')

/-- `SocialContentAgent._select_hashtags(article, limit)`, abstracted over
the article's own hashtag list and category value: take up to `limit`
article hashtags, top up with generated ones, normalize each and discard
any tag left without content after the `#`. -/
def select_hashtags (articleHashtags : List String) (category : Option String)
    (limit : Nat) : List String :=
  let hs := articleHashtags.take limit
  let hs := if hs.length < limit
    then hs ++ generate_additional_hashtags category (limit - hs.length)
    else hs
  (hs.take limit).filterMap (fun tag =>
    if 1 < (formatTag tag.data).length then some (String.mk (formatTag tag.data)) else none)

/-- Python `str.strip()`: drop whitespace from both ends. -/
def stripChars (l : List Char) : List Char :=
  ((l.dropWhile Char.isWhitespace).reverse.dropWhile Char.isWhitespace).reverse

/-- Python `content.split(". ")`: left-to-right, non-overlapping split on
the two-character separator, with an accumulator for the current piece. -/
def splitOnDotSpace : List Char → List Char → List (List Char)
  | [], cur => [cur.reverse]
  | '.' :: ' ' :: cs, cur => cur.reverse :: splitOnDotSpace cs []
  | c :: cs, cur => splitOnDotSpace cs (c :: cur)

/-- `available_chars = max_chars - len(' '.join(hashtags)) - 10` of
`_trim_content` (signed: the hashtags may exceed the limit). -/
def availableChars (max_chars : Nat) (hashtags : List String) : Int :=
  (max_chars : Int) - ((joinSp (hashtags.map String.data)).length : Int) - 10

/-- The greedy sentence loop of `_trim_content`: keep appending
`sentence + ". "` while the running length stays within `available`;
`break` otherwise. -/
def greedySentences (available : Int) : List (List Char) → List Char → List Char
  | [], acc => acc
  | s :: rest, acc =>
    if (((acc ++ s ++ ['.', ' ']).length : Int)) ≤ available then
      greedySentences available rest (acc ++ s ++ ['.', ' '])
    else acc

/-- The word-boundary fallback loop of `_trim_content`: return at the
first word whose inclusion pushes `' '.join` past `available - 3`,
keeping the earlier words plus `"..."`; `none` when the loop finishes
without returning (Python then falls through to
`return trimmed_content.strip()`). -/
def wordTrim (available : Int) : List (List Char) → List (List Char) → Option (List Char)
  | _, [] => none
  | pre, w :: rest =>
    if available - 3 < ((joinSp (pre ++ [w])).length : Int) then
      some (joinSp pre ++ ['.', '.', '.'])
    else wordTrim available (pre ++ [w]) rest

/-- `SocialContentAgent._trim_content(content, max_chars, hashtags)`.
When no complete sentence fits (`trimmed_content` stays empty) and the
word loop also never returns, the Python fall-through returns
`trimmed_content.strip()`, i.e. `strip()` of the empty string. -/
def trim_content (content : List Char) (max_chars : Nat) (hashtags : List String) :
    List Char :=
  if (content.length : Int) ≤ availableChars max_chars hashtags then content
  else if greedySentences (availableChars max_chars hashtags) (splitOnDotSpace content []) [] = [] then
    match wordTrim (availableChars max_chars hashtags) [] (splitWs content) with
    | some r => r
    | none => stripChars []
  else
    stripChars (greedySentences (availableChars max_chars hashtags) (splitOnDotSpace content []) [])

/-- `f"{content} {' '.join(hashtags)}"` of `_create_social_post`. -/
def assembled (content : List Char) (hashtags : List String) : List Char :=
  content ++ ' ' :: joinSp (hashtags.map String.data)

/-- Lines 156-162 of `_create_social_post`: assemble content and hashtags,
re-trimming the content alone when the assembled text exceeds the
platform's `max_chars`. -/
def create_post_content (content : List Char) (hashtags : List String)
    (max_chars : Nat) : List Char :=
  if (max_chars : Int) < ((assembled content hashtags).length : Int) then
    trim_content content max_chars hashtags
  else content

/-- A normalized hashtag 301 characters long (hashtags are never trimmed
and may alone exceed a platform limit). -/
def bigTag : String := String.mk ('#' :: List.replicate 300 'a')

/-- A short piece of content with no sentence boundary. -/
def shortContent : String := "Breaking news about artificial intelligence"

/-- Whitespace-heavy content: its words join to far less than its raw
length. -/
def spacedContent : String := String.mk ('a' :: (List.replicate 30 ' ' ++ ['b']))

/-- A hashtag sized so that `available_chars` is `10` for a 280-character
platform. -/
def spacedTag : String := String.mk ('#' :: List.replicate 259 'a')

/-! ### Dedup lemmas -/

/-- `similarity` yields `none` (Python: `ZeroDivisionError`) exactly when
both token sets are empty. -/
theorem similarity_eq_none_iff (tw sw : List (List Char)) :
    similarity tw sw = none ↔ tw = [] ∧ sw = [] := by
  simp only [similarity]
  constructor
  · intro h
    by_cases hm : max tw.length sw.length = 0
    · constructor
      · exact List.eq_nil_of_length_eq_zero (Nat.le_zero.mp (le_max_left _ _ |>.trans hm.le))
      · exact List.eq_nil_of_length_eq_zero (Nat.le_zero.mp (le_max_right _ _ |>.trans hm.le))
    · simp [hm] at h
  · rintro ⟨h1, h2⟩
    subst h1; subst h2
    simp

/-- Against an empty incoming token set every defined similarity is `0`. -/
theorem similarity_nil_left (sw : List (List Char)) (q : ℚ)
    (h : similarity [] sw = some q) : q = 0 := by
  simp only [similarity] at h
  split at h
  · simp at h
  · have hinter : ([] : List (List Char)).inter sw = [] := rfl
    rw [hinter] at h
    simp only [List.length_nil, Nat.cast_zero, zero_div, Option.some.injEq] at h
    exact h.symm

/-- Unfolding `removeDuplicatesAux` when the similarity scan raises. -/
theorem removeDuplicatesAux_cons_none {seen : List (List (List Char))} {a : Article}
    {rest : List Article} (h : isDuplicate (titleTokens a.title) seen = none) :
    removeDuplicatesAux seen (a :: rest) = none := by
  simp [removeDuplicatesAux, h]

/-- Unfolding `removeDuplicatesAux` when the incoming item is a duplicate:
it is dropped and its tokens are not added to the seen set. -/
theorem removeDuplicatesAux_cons_dup {seen : List (List (List Char))} {a : Article}
    {rest : List Article} (h : isDuplicate (titleTokens a.title) seen = some true) :
    removeDuplicatesAux seen (a :: rest) = removeDuplicatesAux seen rest := by
  simp [removeDuplicatesAux, h]

/-- Unfolding `removeDuplicatesAux` when the incoming item is accepted. -/
theorem removeDuplicatesAux_cons_new {seen : List (List (List Char))} {a : Article}
    {rest : List Article} (h : isDuplicate (titleTokens a.title) seen = some false) :
    removeDuplicatesAux seen (a :: rest) =
      (removeDuplicatesAux (titleTokens a.title :: seen) rest).map (a :: ·) := by
  simp [removeDuplicatesAux, h]

/-- `isDuplicate` answers `some true` exactly when some seen token set has
similarity strictly above `0.7` with the incoming token set. -/
theorem isDuplicate_eq_some_true_iff (tw : List (List Char)) :
    ∀ seen : List (List (List Char)),
      isDuplicate tw seen = some true ↔
        ∃ sw ∈ seen, ∃ q, similarity tw sw = some q ∧ (7 : ℚ) / 10 < q
  | [] => by simp [isDuplicate]
  | sw :: rest => by
    simp only [isDuplicate]
    cases hs : similarity tw sw with
    | none =>
      have hne := (similarity_eq_none_iff tw sw).mp hs
      constructor
      · intro h; simp at h
      · rintro ⟨sw', hmem, q, hq, hqlt⟩
        rcases List.mem_cons.mp hmem with h | h
        · subst h; rw [hs] at hq; cases hq
        · have h0 : q = 0 := similarity_nil_left sw' q (hne.1 ▸ hq)
          rw [h0] at hqlt; norm_num at hqlt
    | some s =>
      show (if (7 : ℚ) / 10 < s then some true else isDuplicate tw rest) = some true ↔ _
      by_cases hlt : (7 : ℚ) / 10 < s
      · rw [if_pos hlt]
        exact iff_of_true rfl ⟨sw, List.mem_cons_self _ _, s, hs, hlt⟩
      · rw [if_neg hlt, isDuplicate_eq_some_true_iff tw rest]
        constructor
        · rintro ⟨sw', hmem, hq⟩
          exact ⟨sw', List.mem_cons_of_mem _ hmem, hq⟩
        · rintro ⟨sw', hmem, q, hq, hqlt⟩
          rcases List.mem_cons.mp hmem with h | h
          · subst h; rw [hs] at hq
            injection hq with hq; subst hq
            exact absurd hqlt hlt
          · exact ⟨sw', h, q, hq, hqlt⟩

/-- Survivors of deduplication form a sublist of the input (first-seen
order is preserved). -/
theorem removeDuplicatesAux_sublist :
    ∀ (l : List Article) (seen : List (List (List Char))) (out : List Article),
      removeDuplicatesAux seen l = some out → out.Sublist l
  | [], _, out => by
    intro h
    simp only [removeDuplicatesAux] at h
    injection h with h
    subst h
    exact List.Sublist.refl []
  | a :: rest, seen, out => by
    intro h
    cases hdup : isDuplicate (titleTokens a.title) seen with
    | none => rw [removeDuplicatesAux_cons_none hdup] at h; cases h
    | some b =>
      cases b with
      | true =>
        rw [removeDuplicatesAux_cons_dup hdup] at h
        exact (removeDuplicatesAux_sublist rest seen out h).cons a
      | false =>
        rw [removeDuplicatesAux_cons_new hdup] at h
        cases hr : removeDuplicatesAux (titleTokens a.title :: seen) rest with
        | none => rw [hr] at h; cases h
        | some out' =>
          rw [hr] at h
          simp only [Option.map_some', Option.some.injEq] at h
          subst h
          exact (removeDuplicatesAux_sublist rest _ out' hr).cons₂ a

/-- Re-running deduplication on its own (successful) output against the
same initial seen set changes nothing. -/
theorem removeDuplicatesAux_idem :
    ∀ (l : List Article) (seen : List (List (List Char))) (out : List Article),
      removeDuplicatesAux seen l = some out →
        removeDuplicatesAux seen out = some out
  | [], _, out => by
    intro h
    simp only [removeDuplicatesAux] at h
    injection h with h
    subst h
    rfl
  | a :: rest, seen, out => by
    intro h
    cases hdup : isDuplicate (titleTokens a.title) seen with
    | none => rw [removeDuplicatesAux_cons_none hdup] at h; cases h
    | some b =>
      cases b with
      | true =>
        rw [removeDuplicatesAux_cons_dup hdup] at h
        exact removeDuplicatesAux_idem rest seen out h
      | false =>
        rw [removeDuplicatesAux_cons_new hdup] at h
        cases hr : removeDuplicatesAux (titleTokens a.title :: seen) rest with
        | none => rw [hr] at h; cases h
        | some out' =>
          rw [hr] at h
          simp only [Option.map_some', Option.some.injEq] at h
          subst h
          rw [removeDuplicatesAux_cons_new hdup,
            removeDuplicatesAux_idem rest _ out' hr]
          rfl

/-! ### Scorer bound lemmas -/

/-- Every tag weight in the table (and the default `0.5`) is positive. -/
theorem tag_weights_pos (t : String) : 0 < tag_weights t := by
  unfold tag_weights
  cases hf : tag_weight_table.find? (fun p => p.1 == t) with
  | none => norm_num
  | some p =>
    have hmem := List.mem_of_find?_eq_some hf
    have hp : 0 < p.2 := by fin_cases hmem <;> norm_num
    simpa using hp

/-- The `(tag_matches, total_weight)` accumulator of
`_calculate_tag_relevance` stays componentwise nonnegative. -/
theorem foldl_tagStep_nonneg (text : List Char) :
    ∀ (tags : List String) (acc : ℚ × ℚ), 0 ≤ acc.1 → 0 ≤ acc.2 →
      0 ≤ (tags.foldl (tagStep text) acc).1 ∧ 0 ≤ (tags.foldl (tagStep text) acc).2
  | [], _, h1, h2 => ⟨h1, h2⟩
  | tag :: rest, acc, h1, h2 => by
    simp only [List.foldl_cons]
    have hw := tag_weights_pos (String.mk (lowerStr tag.data))
    apply foldl_tagStep_nonneg text rest
    · unfold tagStep
      dsimp only
      split_ifs <;> linarith
    · unfold tagStep
      dsimp only
      linarith

/-- Tag relevance is always within `[0, 100]`. -/
theorem calculate_tag_relevance_bounds (a : Article) (tags : List String) :
    0 ≤ calculate_tag_relevance a tags ∧ calculate_tag_relevance a tags ≤ 100 := by
  unfold calculate_tag_relevance
  by_cases h1 : tags = []
  · simp only [h1, if_true]
    norm_num
  · simp only [h1, if_false]
    have hmt := foldl_tagStep_nonneg (article_text a) tags (0, 0) le_rfl le_rfl
    by_cases h2 : (tags.foldl (tagStep (article_text a)) (0, 0)).2 = 0
    · simp only [h2, if_true]
      norm_num
    · simp only [h2, if_false]
      constructor
      · exact le_min (mul_nonneg (div_nonneg hmt.1 hmt.2) (by norm_num)) (by norm_num)
      · exact min_le_right _ _

/-- Category relevance is always within `[0, 100]` (the maximal value is
`80 × 1.2 = 96`). -/
theorem calculate_category_relevance_bounds (a : Article) (cats : List String) :
    0 ≤ calculate_category_relevance a cats ∧ calculate_category_relevance a cats ≤ 100 := by
  unfold calculate_category_relevance
  cases a.category with
  | none => norm_num
  | some cv =>
    have h80 : 0 ≤ 80 * category_preferences cv ∧ 80 * category_preferences cv ≤ 100 := by
      have hcp : 4/5 ≤ category_preferences cv ∧ category_preferences cv ≤ 6/5 := by
        unfold category_preferences
        cases hf : category_preference_table.find? (fun p => p.1 == cv) with
        | none => norm_num
        | some p =>
          have hmem := List.mem_of_find?_eq_some hf
          have hp : 4/5 ≤ p.2 ∧ p.2 ≤ 6/5 := by fin_cases hmem <;> norm_num
          simpa using hp
      constructor <;> nlinarith [hcp.1, hcp.2]
    dsimp only
    split_ifs
    · norm_num
    · exact h80
    · norm_num
    · norm_num

/-- Freshness is always within `[0, 100]` (its range is
`{20, 40, 60, 80, 100}` plus the neutral `50`). -/
theorem calculate_freshness_score_bounds (a : Article) :
    0 ≤ calculate_freshness_score a ∧ calculate_freshness_score a ≤ 100 := by
  unfold calculate_freshness_score
  cases a.published_hours_old with
  | none => norm_num
  | some h =>
    dsimp only
    split_ifs <;> norm_num

/-- Content quality is capped above at `100` by `min(score, 100.0)`. -/
theorem calculate_content_quality_le_100 (a : Article) :
    calculate_content_quality a ≤ 100 := by
  unfold calculate_content_quality
  exact min_le_right _ _

/-! ### Claim theorems for the scorers and ranking -/

/-- C6: in the tag-filter ranking mode the final score assigned to
`relevance_score` is `relevance*0.4 + category*0.2 + quality*0.2 +
freshness*0.2`, and the spec's concrete example evaluates to `78`. -/
theorem C6_weighted_combine :
    (∀ (tags cats : List String) (a : Article),
        (scoreOne (tagFilterSubScores tags cats) a).relevance_score =
          some (calculate_tag_relevance a tags * (2/5) +
            calculate_category_relevance a cats * (1/5) +
            calculate_content_quality a * (1/5) +
            calculate_freshness_score a * (1/5))) ∧
    combinedScore 90 60 70 80 = 78 :=
  ⟨fun _ _ _ => rfl, by norm_num [combinedScore]⟩

/-- `getD` of a mapped list at a valid index. -/
theorem getD_map_of_lt (f : Article → Article) (l : List Article) (i : Nat)
    (h : i < l.length) (d : Article) :
    (l.map f).getD i d = f (l.getD i d) := by
  have h2 : i < (l.map f).length := by simpa using h
  rw [List.getD_eq_getElem _ _ h2, List.getD_eq_getElem _ _ h, List.getElem_map]

/-- C7: a scoring failure on one article does not abort the batch: the
scored list has the same length as the input, every position holds the
scored version of the input article at that position, and a position
whose scoring raised holds the original article with the neutral default
score `50.0`. -/
theorem C7_scoring_failure_isolated
    (subScores : Article → Except String (ℚ × ℚ × ℚ × ℚ))
    (articles : List Article) (d : Article) (i : Nat) (hi : i < articles.length) :
    (scoreArticles subScores articles).length = articles.length ∧
    (scoreArticles subScores articles).getD i d =
      scoreOne subScores (articles.getD i d) ∧
    (∀ e : String, subScores (articles.getD i d) = .error e →
      ((scoreArticles subScores articles).getD i d).relevance_score = some 50) := by
  have hg : (scoreArticles subScores articles).getD i d =
      scoreOne subScores (articles.getD i d) :=
    getD_map_of_lt (scoreOne subScores) articles i hi d
  refine ⟨by simp [scoreArticles], hg, ?_⟩
  intro e he
  rw [hg]
  unfold scoreOne
  rw [he]

/-- Witness for C7 at a concrete input: one article, a sub-scorer that
always raises; the article is retained with score `50`. -/
theorem C7_scoring_failure_isolated_witness :
    (scoreArticles failingSubScores [itemMajor]).length = [itemMajor].length ∧
    (scoreArticles failingSubScores [itemMajor]).getD 0 itemEmpty1 =
      scoreOne failingSubScores ([itemMajor].getD 0 itemEmpty1) ∧
    (∀ e : String, failingSubScores ([itemMajor].getD 0 itemEmpty1) = .error e →
      ((scoreArticles failingSubScores [itemMajor]).getD 0 itemEmpty1).relevance_score =
        some 50) :=
  C7_scoring_failure_isolated failingSubScores [itemMajor] itemEmpty1 0 (by decide)

/-! ### Stable-sort lemmas -/

/-- Inserting keeps the list a permutation of the original plus the new
element. -/
theorem insertDesc_perm (a : Article) : ∀ l : List Article, (insertDesc a l).Perm (a :: l)
  | [] => List.Perm.refl _
  | b :: l => by
    unfold insertDesc
    split_ifs with h
    · exact ((insertDesc_perm a l).cons b).trans (List.Perm.swap a b l)
    · exact List.Perm.refl _

/-- Inserting into a descending-sorted list keeps it descending-sorted. -/
theorem insertDesc_pairwise (a : Article) :
    ∀ l : List Article, l.Pairwise (fun x y => scoreKey y ≤ scoreKey x) →
      (insertDesc a l).Pairwise (fun x y => scoreKey y ≤ scoreKey x)
  | [], _ => List.pairwise_singleton _ _
  | b :: l, h => by
    unfold insertDesc
    rcases List.pairwise_cons.mp h with ⟨hb, hl⟩
    split_ifs with hab
    · refine List.pairwise_cons.mpr ⟨?_, insertDesc_pairwise a l hl⟩
      intro y hy
      rcases List.mem_cons.mp ((insertDesc_perm a l).mem_iff.mp hy) with rfl | hy
      · exact hab.le
      · exact hb y hy
    · refine List.pairwise_cons.mpr ⟨?_, h⟩
      intro y hy
      rcases List.mem_cons.mp hy with rfl | hy
      · exact not_lt.mp hab
      · exact (hb y hy).trans (not_lt.mp hab)

/-- The output of `sortDesc` is descending in `scoreKey`. -/
theorem sortDesc_pairwise :
    ∀ l : List Article, (sortDesc l).Pairwise (fun x y => scoreKey y ≤ scoreKey x)
  | [] => List.Pairwise.nil
  | a :: l => insertDesc_pairwise a (sortDesc l) (sortDesc_pairwise l)

/-- The output of `sortDesc` is a permutation of its input. -/
theorem sortDesc_perm : ∀ l : List Article, (sortDesc l).Perm l
  | [] => List.Perm.refl _
  | a :: l => (insertDesc_perm a (sortDesc l)).trans ((sortDesc_perm l).cons a)

/-- Filtering one key class through an insertion: the new element lands in
front of its class exactly when it has that key. -/
theorem filter_insertDesc (q : ℚ) (a : Article) :
    ∀ l : List Article,
      (insertDesc a l).filter (fun x => decide (scoreKey x = q)) =
        if scoreKey a = q then a :: l.filter (fun x => decide (scoreKey x = q))
        else l.filter (fun x => decide (scoreKey x = q))
  | [] => by
    by_cases haq : scoreKey a = q <;> simp [insertDesc, List.filter_cons, haq]
  | b :: l => by
    unfold insertDesc
    by_cases hab : scoreKey a < scoreKey b
    · rw [if_pos hab]
      by_cases haq : scoreKey a = q
      · have hbq : scoreKey b ≠ q := fun hh => by
          rw [haq, hh] at hab
          exact lt_irrefl q hab
        simp [List.filter_cons, hbq, haq, filter_insertDesc q a l]
      · simp [List.filter_cons, haq, filter_insertDesc q a l]
    · rw [if_neg hab]
      by_cases haq : scoreKey a = q <;> simp [List.filter_cons, haq]

/-- Stability of `sortDesc`: within each `scoreKey` class the original
order is preserved (classic filter formulation, robust to duplicate
items). -/
theorem sortDesc_filter_eq (q : ℚ) :
    ∀ l : List Article,
      (sortDesc l).filter (fun x => decide (scoreKey x = q)) =
        l.filter (fun x => decide (scoreKey x = q))
  | [] => rfl
  | a :: l => by
    simp only [sortDesc]
    rw [filter_insertDesc q a (sortDesc l), sortDesc_filter_eq q l]
    by_cases haq : scoreKey a = q
    · rw [if_pos haq, List.filter_cons]
      simp [haq]
    · rw [if_neg haq, List.filter_cons]
      simp [haq]

/-- C8: the ranking output is deterministic and stable: it is sorted
descending by `relevance_score or 0`, items with equal scores keep their
arrival order (the per-score-class filtrations are unchanged), the output
is a permutation of the input, and re-running on the same input produces
the identical output. -/
theorem C8_stable_ranking :
    (∀ l : List Article,
        (sortDesc l).Pairwise (fun x y => scoreKey y ≤ scoreKey x)) ∧
    (∀ (q : ℚ) (l : List Article),
        (sortDesc l).filter (fun x => decide (scoreKey x = q)) =
          l.filter (fun x => decide (scoreKey x = q))) ∧
    (∀ l : List Article, (sortDesc l).Perm l) ∧
    (∀ l : List Article, sortDesc l = sortDesc l) :=
  ⟨sortDesc_pairwise, sortDesc_filter_eq, sortDesc_perm, fun _ => rfl⟩

/-- C10: on an empty article list `TagFilterAgent.execute` returns the
single-key dictionary `{"filtered_articles": []}`, while every non-empty
invocation returns the four keys `articles`, `filtered_count`,
`original_count`, `average_relevance` — a different shape. -/
theorem C10_empty_vs_nonempty_shape
    (subScores : Article → Except String (ℚ × ℚ × ℚ × ℚ)) :
    ((executeTagFilter subScores []).map Prod.fst = ["filtered_articles"] ∧
      executeTagFilter subScores [] = [("filtered_articles", RVal.arts [])]) ∧
    (∀ articles : List Article, articles ≠ [] →
      (executeTagFilter subScores articles).map Prod.fst =
        ["articles", "filtered_count", "original_count", "average_relevance"]) := by
  refine ⟨⟨rfl, rfl⟩, ?_⟩
  intro articles h
  simp [executeTagFilter, h]

/-- Witness for C10 at a concrete non-empty input. -/
theorem C10_empty_vs_nonempty_shape_witness :
    (executeTagFilter failingSubScores [itemMajor]).map Prod.fst =
      ["articles", "filtered_count", "original_count", "average_relevance"] :=
  (C10_empty_vs_nonempty_shape failingSubScores).2 [itemMajor] (by decide)

/-- C5: deduplication is idempotent: running `_remove_duplicates` on its
own output returns that output unchanged (stated monadically so that a
raised `ZeroDivisionError`, modelled as `none`, propagates on both
sides). -/
theorem C5_dedupe_idempotent (X : List Article) :
    (remove_duplicates X).bind remove_duplicates = remove_duplicates X := by
  cases hX : remove_duplicates X with
  | none => rfl
  | some Y => exact removeDuplicatesAux_idem X [] Y hX

/-! ### Social repackaging lemmas -/

/-- The greedy sentence loop either returns its accumulator untouched or
returns a string within the budget ending at a sentence boundary. -/
theorem greedySentences_spec (available : Int) :
    ∀ (sents : List (List Char)) (acc : List Char),
      greedySentences available sents acc = acc ∨
        (((greedySentences available sents acc).length : Int) ≤ available ∧
          ['.', ' '] <:+ greedySentences available sents acc)
  | [], _ => Or.inl rfl
  | s :: rest, acc => by
    unfold greedySentences
    split_ifs with h
    · rcases greedySentences_spec available rest (acc ++ s ++ ['.', ' ']) with heq | hsp
      · right
        rw [heq]
        exact ⟨h, acc ++ s, rfl⟩
      · right
        exact hsp
    · left
      rfl

/-- The word-boundary fallback, started from an in-budget prefix, returns
(when it returns) a string within the budget ending in `"..."`. -/
theorem wordTrim_spec (available : Int) (h4 : 4 ≤ available) :
    ∀ (ws pre : List (List Char)),
      (pre = [] ∨ ((joinSp pre).length : Int) ≤ available - 3) →
      ∀ r, wordTrim available pre ws = some r →
        ((r.length : Int) ≤ available ∧ ['.', '.', '.'] <:+ r)
  | [], _, _, r => by
    intro hr
    cases hr
  | w :: rest, pre, hpre, r => by
    unfold wordTrim
    split_ifs with h
    · intro hr
      injection hr with hr
      subst hr
      refine ⟨?_, joinSp pre, rfl⟩
      rw [List.length_append]
      have h3 : (['.', '.', '.'] : List Char).length = 3 := rfl
      rw [h3]
      rcases hpre with rfl | hlen
      · simp only [joinSp, List.length_nil]
        push_cast
        omega
      · push_cast
        omega
    · exact wordTrim_spec available h4 rest (pre ++ [w]) (Or.inr (le_of_not_lt h)) r

/-- `strip()` of a string ending in `". "` ends in `"."`. -/
theorem stripChars_dot_space {l : List Char} (h : ['.', ' '] <:+ l) :
    ['.'] <:+ stripChars l := by
  obtain ⟨t, rfl⟩ := h
  unfold stripChars
  rw [List.dropWhile_append]
  by_cases hemp : (t.dropWhile Char.isWhitespace).isEmpty
  · rw [if_pos hemp]
    exact ⟨[], by decide⟩
  · rw [if_neg hemp]
    rw [List.reverse_append]
    have hws : Char.isWhitespace ' ' = true := by decide
    have hwd : Char.isWhitespace '.' = false := by decide
    have h2 : List.dropWhile Char.isWhitespace
        ((['.', ' '] : List Char).reverse ++ (t.dropWhile Char.isWhitespace).reverse) =
        '.' :: (t.dropWhile Char.isWhitespace).reverse := by
      show List.dropWhile Char.isWhitespace
        (' ' :: '.' :: (t.dropWhile Char.isWhitespace).reverse) = _
      rw [List.dropWhile_cons, hws]
      simp only [if_true]
      rw [List.dropWhile_cons, hwd]
      simp
    rw [h2, List.reverse_cons, List.reverse_reverse]
    exact ⟨_, rfl⟩

/-- `strip()` never lengthens a string. -/
theorem stripChars_length_le (l : List Char) : (stripChars l).length ≤ l.length := by
  unfold stripChars
  rw [List.length_reverse]
  calc ((l.dropWhile Char.isWhitespace).reverse.dropWhile Char.isWhitespace).length
      ≤ (l.dropWhile Char.isWhitespace).reverse.length :=
        (List.dropWhile_sublist _).length_le
    _ = (l.dropWhile Char.isWhitespace).length := List.length_reverse _
    _ ≤ l.length := (List.dropWhile_sublist _).length_le

/-- Length of the assembled post text. -/
theorem assembled_length (content : List Char) (hs : List String) :
    (assembled content hs).length =
      content.length + 1 + (joinSp (hs.map String.data)).length := by
  unfold assembled
  rw [List.length_append, List.length_cons]
  omega

/-- `_trim_content` either returns the content unchanged (only when it
already fits the budget) or returns a string within the budget that ends
at a sentence boundary, ends in `"..."`, or is empty. -/
theorem trim_content_spec (c : List Char) (m : Nat) (hs : List String)
    (h4 : 4 ≤ availableChars m hs) :
    (trim_content c m hs = c ∧ (c.length : Int) ≤ availableChars m hs) ∨
      (((trim_content c m hs).length : Int) ≤ availableChars m hs ∧
        (['.'] <:+ trim_content c m hs ∨ ['.', '.', '.'] <:+ trim_content c m hs ∨
          trim_content c m hs = [])) := by
  unfold trim_content
  split_ifs with hfit htr
  · exact Or.inl ⟨rfl, hfit⟩
  · cases hw : wordTrim (availableChars m hs) [] (splitWs c) with
    | some r =>
      right
      have hspec := wordTrim_spec (availableChars m hs) h4 (splitWs c) [] (Or.inl rfl) r hw
      exact ⟨hspec.1, Or.inr (Or.inl hspec.2)⟩
    | none =>
      right
      constructor
      · show ((List.length ([] : List Char) : Int)) ≤ _
        rw [List.length_nil]
        omega
      · exact Or.inr (Or.inr rfl)
  · right
    rcases greedySentences_spec (availableChars m hs) (splitOnDotSpace c []) [] with heq | ⟨hlen, hsuf⟩
    · exact absurd heq htr
    · constructor
      · calc ((stripChars (greedySentences (availableChars m hs) (splitOnDotSpace c []) [])).length : Int)
            ≤ ((greedySentences (availableChars m hs) (splitOnDotSpace c []) []).length : Int) := by
              exact_mod_cast stripChars_length_le _
          _ ≤ availableChars m hs := hlen
      · exact Or.inl (stripChars_dot_space hsuf)

/-! ### Claim theorems for the social repackager -/

/-- C3: the claim says (content + " " + hashtags) never exceeds
`maxChars` and trimmed content ends at a `". "` boundary or with `"..."`.
Both parts fail on the code: hashtags are never trimmed, so a single
301-character hashtag pushes the assembled twitter post (maxChars 280) to
305 characters; and whitespace-heavy content is trimmed to the empty
string, which ends with neither. -/
theorem C3_trim_counterexample :
    280 < (assembled (create_post_content shortContent.data [bigTag] 280) [bigTag]).length ∧
    create_post_content spacedContent.data [spacedTag] 280 ≠ spacedContent.data ∧
    create_post_content spacedContent.data [spacedTag] 280 = [] := by
  refine ⟨?_, ?_, ?_⟩ <;> decide

/-- C3 (amended): provided the space-joined hashtag text is at most
`maxChars - 14` characters, the assembled post text never exceeds
`maxChars`; and whenever the content was changed by trimming, it ends at
a sentence boundary (a trailing `"."` after `strip()`), ends with
`"..."`, or is the empty string (the fall-through when no prefix fits). -/
theorem C3_trim_correctness (c : List Char) (hs : List String) (m : Nat)
    (hbudget : (joinSp (hs.map String.data)).length + 14 ≤ m) :
    (assembled (create_post_content c hs m) hs).length ≤ m ∧
    (create_post_content c hs m ≠ c →
      (['.'] <:+ create_post_content c hs m ∨
        ['.', '.', '.'] <:+ create_post_content c hs m ∨
        create_post_content c hs m = [])) := by
  have h4 : 4 ≤ availableChars m hs := by
    unfold availableChars
    omega
  unfold create_post_content
  split_ifs with hover
  · rcases trim_content_spec c m hs h4 with ⟨heq, hlen⟩ | ⟨hlen, hend⟩
    · rw [heq]
      constructor
      · rw [assembled_length]
        unfold availableChars at hlen
        omega
      · intro hne
        exact absurd rfl hne
    · constructor
      · rw [assembled_length]
        unfold availableChars at hlen
        omega
      · intro _
        exact hend
  · constructor
    · exact_mod_cast not_lt.mp hover
    · intro hne
      exact absurd rfl hne

/-- Witness for C3 (amended) at a concrete input: a short hashtag within
budget on a 50-character platform. -/
theorem C3_trim_correctness_witness :
    (assembled (create_post_content ("First sentence here. Second sentence follows.").data
        ["#AI"] 50) ["#AI"]).length ≤ 50 ∧
    (create_post_content ("First sentence here. Second sentence follows.").data ["#AI"] 50 ≠
        ("First sentence here. Second sentence follows.").data →
      (['.'] <:+ create_post_content ("First sentence here. Second sentence follows.").data
          ["#AI"] 50 ∨
        ['.', '.', '.'] <:+ create_post_content
          ("First sentence here. Second sentence follows.").data ["#AI"] 50 ∨
        create_post_content ("First sentence here. Second sentence follows.").data
          ["#AI"] 50 = [])) :=
  C3_trim_correctness ("First sentence here. Second sentence follows.").data ["#AI"] 50
    (by decide)

/-- Every formatted hashtag starts with `#` and holds only alphanumerics
and `#`. -/
theorem formatTag_spec (t : List Char) :
    (∃ r, formatTag t = '#' :: r) ∧ ∀ ch ∈ formatTag t, ch.isAlphanum ∨ ch = '#' := by
  constructor
  · unfold formatTag
    by_cases h : t.take 1 = ['#']
    · rw [if_pos h]
      obtain ⟨rest, rfl⟩ : ∃ rest, t = '#' :: rest := by
        cases t with
        | nil => simp at h
        | cons c cs =>
          refine ⟨cs, ?_⟩
          simp [List.take] at h
          rw [h]
      rw [List.filter_cons_of_pos (by decide)]
      exact ⟨_, rfl⟩
    · rw [if_neg h, List.filter_cons_of_pos (by decide)]
      exact ⟨_, rfl⟩
  · intro ch hch
    unfold formatTag at hch
    have hp := (List.mem_filter.mp hch).2
    rcases Bool.or_eq_true_iff.mp hp with h1 | h2
    · exact Or.inl h1
    · exact Or.inr (by simpa using h2)

/-- C9 (counterexample to the dedup part): the code never deduplicates
selected hashtags — an article carrying `["#AI", "#AI"]` yields the
duplicate pair unchanged. -/
theorem C9_duplicate_hashtags :
    select_hashtags ["#AI", "#AI"] none 2 = ["#AI", "#AI"] ∧
    ¬ (select_hashtags ["#AI", "#AI"] none 2).Nodup := by
  constructor <;> decide

/-- C9 (amended): the selected hashtag list has at most `hashtagLimit`
entries, and every entry starts with `#`, has at least one character
after the `#`, and holds only alphanumeric characters and `#`; tags
normalized to bare `#` or empty are discarded.  (Duplicates are NOT
removed.) -/
theorem C9_hashtag_selection (articleHashtags : List String)
    (category : Option String) (limit : Nat) :
    (select_hashtags articleHashtags category limit).length ≤ limit ∧
    ∀ t ∈ select_hashtags articleHashtags category limit,
      1 < t.length ∧ t.data.take 1 = ['#'] ∧ ∀ ch ∈ t.data, ch.isAlphanum ∨ ch = '#' := by
  constructor
  · unfold select_hashtags
    calc (List.filterMap _ (List.take limit _)).length
        ≤ (List.take limit _).length := List.length_filterMap_le _ _
      _ ≤ limit := List.length_take_le _ _
  · intro t ht
    simp only [select_hashtags] at ht
    rw [List.mem_filterMap] at ht
    obtain ⟨tag, _, hf⟩ := ht
    by_cases hlen : 1 < (formatTag tag.data).length
    · rw [if_pos hlen] at hf
      injection hf with hf
      subst hf
      obtain ⟨r, hr⟩ := (formatTag_spec tag.data).1
      refine ⟨by simpa using hlen, by simp [hr], ?_⟩
      intro ch hch
      exact (formatTag_spec tag.data).2 ch (by simpa using hch)
    · rw [if_neg hlen] at hf
      cases hf

/-- Witness for C9 (amended) at a concrete input. -/
theorem C9_hashtag_selection_witness :
    1 < ("#AI" : String).length ∧ ("#AI" : String).data.take 1 = ['#'] ∧
      ∀ ch ∈ ("#AI" : String).data, ch.isAlphanum ∨ ch = '#' :=
  (C9_hashtag_selection ["#AI"] none 2).2 "#AI" (by decide)

/-! ### Claim theorems needing kernel evaluation of rationals

`Rat.mul`, `Rat.add` and friends are `@[irreducible]` in Batteries, which
blocks `decide` on concrete rational computations; they are made
semireducible locally for the concrete evaluations below.  All proofs
still reach the kernel with only the standard axioms. -/

section RatEval

set_option allowUnsafeReducibility true

attribute [local semireducible] Rat.mul Rat.inv Rat.add Rat.sub Rat.div Rat.blt


/-- C2: the claim says deduplication never fails on empty titles (an
empty-title item should have similarity `1.0` with a previously accepted
empty-title item and be deduplicated, with no division by zero).  The
code instead computes `overlap / max(0, 0)` and raises
`ZeroDivisionError` (modelled as `none`) as soon as a second
whitespace-only title is compared against an accepted one; an empty
title against a non-empty one is handled (similarity `0`). -/
theorem C2_empty_title_division_by_zero :
    remove_duplicates [itemEmpty1, itemEmpty2] = none ∧
    remove_duplicates [itemMajor, itemEmpty1] = some [itemMajor, itemEmpty1] := by
  decide

/-- C4: an incoming item is dropped exactly when its lower-cased title
token set has similarity strictly greater than `0.70` (overlap divided by
the larger set size) with some previously accepted token set; a dropped
item's tokens are not added to the seen set; survivors keep their
first-occurrence order; the two spec title pairs behave as stated. -/
theorem C4_dedupe_threshold :
    (∀ (tw : List (List Char)) (seen : List (List (List Char))),
        isDuplicate tw seen = some true ↔
          ∃ sw ∈ seen, ∃ q, similarity tw sw = some q ∧ (7 : ℚ) / 10 < q) ∧
    (∀ (seen : List (List (List Char))) (a : Article) (rest : List Article),
        isDuplicate (titleTokens a.title) seen = some true →
          removeDuplicatesAux seen (a :: rest) = removeDuplicatesAux seen rest) ∧
    (∀ (l out : List Article), remove_duplicates l = some out → out.Sublist l) ∧
    remove_duplicates [itemMajor, itemMassive] = some [itemMajor] ∧
    remove_duplicates [itemAIFunding, itemClimate] = some [itemAIFunding, itemClimate] :=
  ⟨fun tw seen => isDuplicate_eq_some_true_iff tw seen,
   fun _ _ _ h => removeDuplicatesAux_cons_dup h,
   fun l out h => removeDuplicatesAux_sublist l [] out h,
   by decide, by decide⟩

/-- Witness for C4 at concrete inputs: the near-duplicate pair dedupes to
its first element, which is a sublist of the input. -/
theorem C4_dedupe_threshold_witness :
    [itemMajor].Sublist [itemMajor, itemMassive] :=
  C4_dedupe_threshold.2.2.1 [itemMajor, itemMassive] [itemMajor] (by decide)

/-- C1: the claim says every scorer output lies in `[0, 100]` even for
adversarial sub-scores, with the quality score clamped at a floor of 0.
Tag relevance, category relevance and freshness are indeed in `[0, 100]`,
and quality never exceeds `100`; but quality has no floor: with
`credibility_score = -1000` it evaluates to `-265`. -/
theorem C1_score_bounds :
    (calculate_content_quality adversarialArticle = -265 ∧
      calculate_content_quality adversarialArticle < 0) ∧
    (∀ (a : Article) (tags : List String),
        0 ≤ calculate_tag_relevance a tags ∧ calculate_tag_relevance a tags ≤ 100) ∧
    (∀ (a : Article) (cats : List String),
        0 ≤ calculate_category_relevance a cats ∧
          calculate_category_relevance a cats ≤ 100) ∧
    (∀ a : Article,
        0 ≤ calculate_freshness_score a ∧ calculate_freshness_score a ≤ 100) ∧
    (∀ a : Article, calculate_content_quality a ≤ 100) :=
  ⟨by decide, calculate_tag_relevance_bounds, calculate_category_relevance_bounds,
   calculate_freshness_score_bounds, calculate_content_quality_le_100⟩

end RatEval

end Mzon
